import Mathlib

/-!
Shallow embedding of the incremental object-synchronization engine of
`sync_workspace_r2.py` and `restore_workspace_r2.py`.

Modelling conventions:
* byte sizes are `Nat`; timestamps (POSIX mtimes, store `LastModified`) are `Rat`;
* a local file that may be absent is `Option LocalStat`;
* Python's `try/except` around a fallible operation is modelled by the
  operation returning `Except String α` (the `String` is `str(exc)`);
* Python dict/`None` lookups become `Option`.
-/

namespace RunpodTricks

/-- Local filesystem metadata of one file: `stat().st_size` and `st_mtime`. -/
structure LocalStat where
  size : Nat
  mtime : Rat
deriving Repr, DecidableEq

/-- Remote object metadata as returned by `head_object`:
`ContentLength` (may be missing/null, the code coerces that to 0) and
`LastModified` (may be absent). -/
structure RemoteMeta where
  contentLength : Option Nat
  lastModified : Option Rat
deriving Repr, DecidableEq

/-- Embedding of `int(remote_meta.get("ContentLength") or 0)` from
`_should_upload`. -/
def remoteSize (m : RemoteMeta) : Nat :=
  m.contentLength.getD 0

/-- Embedding of `_should_download(local_path, size, remote_time, overwrite)` from
`restore_workspace_r2.py` (lines 365-378).  `local` is the stat of the local
file when it exists (`None` models `not local_path.exists()`). -/
def shouldDownload (loc : Option LocalStat) (size : Nat)
    (remoteTime : Option Rat) (overwrite : Bool) : Bool :=
  if overwrite then true
  else match loc with
    | none => true
    | some st =>
      if st.size ≠ size then true
      else match remoteTime with
        | none => false
        | some rt => decide (st.mtime < rt)

/-- Embedding of `_should_upload(local_path, remote_meta)` from `sync_workspace_r2.py`
(lines 220-233).  `local` is the stat of the local file being pushed;
`meta` is the `head_object` result (`None` when the head call failed or the
object is absent). -/
def shouldUpload (loc : LocalStat) (meta : Option RemoteMeta) : Bool :=
  match meta with
  | none => true
  | some m =>
    if loc.size ≠ remoteSize m then true
    else match m.lastModified with
      | none => false
      | some rt => decide (loc.mtime > rt)

/-- Transfer outcome status, the second component of the tuples returned by
`_sync_file` and `_download_one`. -/
inductive Status where
  | uploaded
  | downloaded
  | skipped
  | failed
deriving Repr, DecidableEq

/-- One `TransferOutcome`: status plus the optional error message (the
third component of the tuples returned by `_sync_file` / `_download_one`).
Durations are not modelled (wall-clock time). -/
structure Outcome where
  status : Status
  errorMessage : Option String
deriving Repr, DecidableEq

/-- Embedding of `_head_object(client, bucket, key)` from `sync_workspace_r2.py`
(lines 213-217): the underlying `head_object` call either returns metadata
or raises; any exception is swallowed and turned into `None`. -/
def headObject (call : Except String RemoteMeta) : Option RemoteMeta :=
  match call with
  | .ok m => some m
  | .error _ => none

/-- Embedding of `_download_one(client, bucket, key, local_path)` from
`restore_workspace_r2.py` (lines 381-388).  `body` is the fallible part
(mkdir + `download_file`); an exception `e` becomes a `failed` outcome
carrying `str(e)`, success becomes `downloaded`. -/
def downloadOne (body : Except String Unit) : Outcome :=
  match body with
  | .ok _ => ⟨Status.downloaded, none⟩
  | .error e => ⟨Status.failed, some e⟩

/-- Embedding of `_sync_file(client, cfg, local_path)` from `sync_workspace_r2.py`
(lines 236-246).  `meta` is the `_head_object` result, `loc` the local stat,
`uploadCall` the fallible `upload_file` invocation; the surrounding
`try/except` turns an exception `e` into a `failed` outcome carrying
`str(e)`. -/
def syncFile (meta : Option RemoteMeta) (loc : LocalStat)
    (uploadCall : Except String Unit) : Outcome :=
  if shouldUpload loc meta then
    match uploadCall with
    | .ok _ => ⟨Status.uploaded, none⟩
    | .error e => ⟨Status.failed, some e⟩
  else ⟨Status.skipped, none⟩

/-- A batch of download tasks: each task's fallible body is handled
independently by `_download_one`; the scheduler produces one outcome per
task. -/
def runDownloadBatch (tasks : List (Except String Unit)) : List Outcome :=
  tasks.map downloadOne

/-- Progress counters of one pass (`processed` / `skipped` / `failed` /
`transferred`, the latter being `uploaded` in the push pass and
`downloaded` in the pull pass). -/
structure Counters where
  processed : Nat
  skipped : Nat
  failed : Nat
  transferred : Nat
deriving Repr, DecidableEq

/-- One iteration of the result-aggregation loop of `sync_workspace`
(lines 264-302): `processed += 1` then exactly one of the three buckets is
incremented according to the outcome's status. -/
def syncStep (c : Counters) (s : Status) : Counters :=
  let c := { c with processed := c.processed + 1 }
  if s = Status.failed then { c with failed := c.failed + 1 }
  else if s = Status.skipped then { c with skipped := c.skipped + 1 }
  else { c with transferred := c.transferred + 1 }

/-- One iteration of the result-aggregation loop of `restore_workspace`
(lines 434-471): `processed += 1`, then `failed` or `downloaded` is
incremented; `skipped` is never touched inside this loop. -/
def restoreStep (c : Counters) (s : Status) : Counters :=
  let c := { c with processed := c.processed + 1 }
  if s = Status.failed then { c with failed := c.failed + 1 }
  else { c with transferred := c.transferred + 1 }

/-- Counters of the push pass after the first `k` outcomes have been
aggregated (all counters start at 0). -/
def syncCountersAt (outcomes : List Status) (k : Nat) : Counters :=
  (outcomes.take k).foldl syncStep ⟨0, 0, 0, 0⟩

/-- Counters of the pull pass after the first `k` download outcomes have
been aggregated: `skipped` was already fixed by the pre-pass over the diff
decisions (lines 418-426) and stays constant during the download loop. -/
def restoreCountersAt (skipped0 : Nat) (outcomes : List Status) (k : Nat) :
    Counters :=
  (outcomes.take k).foldl restoreStep ⟨0, skipped0, 0, 0⟩

/-- A Python `str` modelled as its list of codepoints: Python's
`startswith`, `endswith` and slicing (`key[len(prefix):]`) all operate on
codepoints, which matches `List Char` exactly. -/
abbrev PyStr := List Char

/-- Python `s.startswith(p)`. -/
def pyStartsWith (s p : PyStr) : Bool := p.isPrefixOf s

/-- Python `s.endswith(p)`. -/
def pyEndsWith (s p : PyStr) : Bool := p.isSuffixOf s

/-- One item of the remote listing (`list_objects_v2` contents):
`Key` (missing modelled as `[]`, matching `item.get("Key") or ""`),
`Size` (may be missing/null, coerced to 0 by `int(item.get("Size") or 0)`),
and `LastModified`. -/
structure RObj where
  key : PyStr
  size : Option Nat
  lastModified : Option Rat
deriving Repr, DecidableEq

/-- The per-item key filter of `restore_workspace` (lines 395-402): keep an
object only when its key starts with the prefix and the remainder
`rel_path = key[len(prefix):]` is neither empty nor a pseudo-directory
marker ending in "/"; a kept object becomes a `(key, rel_path, item)`
triple. -/
def considerItem (pfx : PyStr) (item : RObj) :
    Option (PyStr × PyStr × RObj) :=
  if ¬ pyStartsWith item.key pfx then none
  else
    let rel := item.key.drop pfx.length
    if rel = [] ∨ pyEndsWith rel ['/'] then none
    else some (item.key, rel, item)

/-- The `objects` list built by the listing loop of `restore_workspace`. -/
def consideredObjects (pfx : PyStr) (items : List RObj) :
    List (PyStr × PyStr × RObj) :=
  items.filterMap (considerItem pfx)

/-- The exclusion condition of the listing filter, as a boolean. -/
def excludedKey (pfx key : PyStr) : Bool :=
  !(pyStartsWith key pfx) || key.drop pfx.length == [] ||
    pyEndsWith (key.drop pfx.length) ['/']

/-- One step of the pre-pass of `restore_workspace` (lines 418-426): a
considered object either joins `pending` (its key and relative local path)
or bumps the `skipped` count.  `fs` is the local filesystem, an association
list from relative path to stat (`None` lookup models an absent local
file). -/
def planStep (fs : List (PyStr × LocalStat)) (overwrite : Bool)
    (acc : List (PyStr × PyStr) × Nat) (o : PyStr × PyStr × RObj) :
    List (PyStr × PyStr) × Nat :=
  if shouldDownload (fs.lookup o.2.1) (o.2.2.size.getD 0) o.2.2.lastModified
      overwrite then
    (acc.1 ++ [(o.1, o.2.1)], acc.2)
  else (acc.1, acc.2 + 1)

/-- Result of the listing filter plus the pre-pass of `restore_workspace`:
the considered objects, the pending downloads, and the skip count. -/
structure RestorePlan where
  considered : List (PyStr × PyStr × RObj)
  pending : List (PyStr × PyStr)
  skipped : Nat
deriving Repr, DecidableEq

/-- The enumeration/diff phase of `restore_workspace` (lines 394-426). -/
def restorePlan (pfx : PyStr) (fs : List (PyStr × LocalStat))
    (overwrite : Bool) (items : List RObj) : RestorePlan :=
  let objs := consideredObjects pfx items
  let acc := objs.foldl (planStep fs overwrite) ([], 0)
  ⟨objs, acc.1, acc.2⟩

/-- Python's builtin `round` (banker's rounding, used by
`int(round(seconds))` in `_fmt_duration`): ties go to the even neighbour,
otherwise to the nearest integer. -/
def pyRound (q : Rat) : Int :=
  if q - ⌊q⌋ = 1 / 2 then (if ⌊q⌋ % 2 = 0 then ⌊q⌋ else ⌊q⌋ + 1)
  else round q

/-- Python's `f"{n:02d}"` for a natural number: zero-pad to two digits. -/
def pad2 (n : Nat) : String :=
  if n < 10 then "0" ++ toString n else toString n

/-- Embedding of `_fmt_duration(seconds)` from `sync_workspace_r2.py` (lines 154-162) /
`restore_workspace_r2.py` (lines 203-211): negative input renders "n/a";
otherwise the rounded whole-second count is split by `divmod` into
hours/minutes/seconds and rendered `H:MM:SS` when the hour field is nonzero,
else `M:SS`. -/
def fmtDuration (seconds : Rat) : String :=
  if seconds < 0 then "n/a"
  else
    let s := (pyRound seconds).toNat
    let hours := s / 3600
    let rem := s % 3600
    let minutes := rem / 60
    let secs := rem % 60
    if hours ≠ 0 then toString hours ++ ":" ++ pad2 minutes ++ ":" ++ pad2 secs
    else toString minutes ++ ":" ++ pad2 secs

/-- State of a `RollingEta`: for each configured window size (in dict
insertion order), the current list of duration samples.  `__init__`
starts every window empty. -/
def etaInit (windows : List Nat) : List (Nat × List Rat) :=
  windows.map fun w => (w, [])

/-- The per-window body of `RollingEta.add` (lines 134-139): append the new
duration, then `pop(0)` the oldest sample once the list exceeds the window
size. -/
def windowAdd (w : Nat) (d : Rat) (samples : List Rat) : List Rat :=
  let s := samples ++ [d]
  if s.length > w then s.tail else s

/-- Embedding of `RollingEta.add(duration)`: applied to every configured window. -/
def etaAdd (d : Rat) (st : List (Nat × List Rat)) : List (Nat × List Rat) :=
  st.map fun p => (p.1, windowAdd p.1 d p.2)

/-- A sequence of `add` calls, oldest first. -/
def etaAddAll (ds : List Rat) (st : List (Nat × List Rat)) :
    List (Nat × List Rat) :=
  ds.foldl (fun s d => etaAdd d s) st

/-- The `f"w{window}(n={len})={fmt}"` part string that `RollingEta.format`
emits for one non-empty window. -/
def etaPart (remaining : Int) (w : Nat) (samples : List Rat) : String :=
  "w" ++ toString w ++ "(n=" ++ toString samples.length ++ ")=" ++
    fmtDuration ((remaining : Rat) * (samples.sum / (samples.length : Rat)))

/-- The `parts` list of `RollingEta.format`: windows with no samples are
passed over (`continue`). -/
def etaParts (remaining : Int) : List (Nat × List Rat) → List String
  | [] => []
  | p :: rest =>
    if p.2.isEmpty then etaParts remaining rest
    else etaPart remaining p.1 p.2 :: etaParts remaining rest

/-- Embedding of `RollingEta.format(remaining)` (lines 141-151): "0s" for
`remaining <= 0`, otherwise the comma-joined per-window parts, or "n/a"
when every window is empty. -/
def etaFormat (st : List (Nat × List Rat)) (remaining : Int) : String :=
  if remaining ≤ 0 then "0s"
  else
    let parts := etaParts remaining st
    if parts.isEmpty then "n/a" else String.intercalate ", " parts

/-- The environment variables consulted by `load_r2_config` and `main` of
`sync_workspace_r2.py`, each already resolved through `_env_first` over its
alias list (`""` = every alias unset, matching `_env_first`'s fallback). -/
structure EnvVars where
  accountId : String
  bucket : String
  endpoint : String
  accessKey : String
  secretKey : String
  token : String
  pfxWs : String
  allowFlag : String
deriving Repr, DecidableEq

/-- The public config file contents (`_load_public_config`), fields absent
when the JSON key is missing. -/
structure PubCfg where
  accountId : Option String
  bucket : Option String
  endpoint : Option String
  pfxWs : Option String
deriving Repr, DecidableEq

/-- The secret config file contents (`_load_secret_config`). -/
structure SecCfg where
  accessKey : Option String
  secretKey : Option String
  token : Option String
deriving Repr, DecidableEq

/-- The validated connection parameters (`R2Config` dataclass). -/
structure R2Config where
  account_id : String
  bucket : String
  endpoint : String
  access_key : String
  secret_key : String
  token : Option String
  pfxWs : String
deriving Repr, DecidableEq

/-- Python `a or b` on strings (`""` is falsy). -/
def pyOrStr (a b : String) : String := if a = "" then b else a

/-- Python `cfg.get(key) or ""`. -/
def getStr (o : Option String) : String := o.getD ""

/-- The `AF_R2_ALLOW_FILE_SECRETS` parsing in `load_r2_config`
(lines 84-87): unset means file secrets are allowed; otherwise the flag
must spell a truthy word. -/
def allowFileSecrets (allowFlag : String) : Bool :=
  if allowFlag = "" then true
  else (["1", "true", "yes", "on"] : List String).contains allowFlag.toLower

/-- Merged `bucket = _env_first(...) or cfg.get("bucket") or ""`. -/
def mergedBucket (env : EnvVars) (pub : PubCfg) : String :=
  pyOrStr env.bucket (getStr pub.bucket)

/-- Merged `account_id = _env_first(...) or cfg.get("account_id") or ""`. -/
def mergedAccountId (env : EnvVars) (pub : PubCfg) : String :=
  pyOrStr env.accountId (getStr pub.accountId)

/-- The endpoint after merging and the account-id fallback of
lines 112-113. -/
def mergedEndpoint (env : EnvVars) (pub : PubCfg) : String :=
  let e := pyOrStr env.endpoint (getStr pub.endpoint)
  if e = "" ∧ mergedAccountId env pub ≠ "" then
    "https://" ++ mergedAccountId env pub ++ ".r2.cloudflarestorage.com"
  else e

/-- Merged `access_key = _env_first(...) or (secret_cfg.get("access_key") if
allow_file_secrets else "")`. -/
def mergedAccessKey (env : EnvVars) (sec : SecCfg) (allow : Bool) : String :=
  pyOrStr env.accessKey (if allow then getStr sec.accessKey else "")

/-- Merged `secret_key = ...`, same shape as the access key. -/
def mergedSecretKey (env : EnvVars) (sec : SecCfg) (allow : Bool) : String :=
  pyOrStr env.secretKey (if allow then getStr sec.secretKey else "")

/-- Embedding of `load_r2_config()` from `sync_workspace_r2.py` (lines 82-126): merge
environment, public config and secret config; derive the endpoint from the
account id when absent; return `None` unless bucket, endpoint, access key
and secret key are all non-empty. -/
def load_r2_config (env : EnvVars) (pub : PubCfg) (sec : SecCfg) :
    Option R2Config :=
  let allow := allowFileSecrets env.allowFlag
  let bucket := mergedBucket env pub
  let endpoint := mergedEndpoint env pub
  let ak := mergedAccessKey env sec allow
  let sk := mergedSecretKey env sec allow
  if bucket = "" ∨ endpoint = "" ∨ ak = "" ∨ sk = "" then none
  else
    some
      { account_id := mergedAccountId env pub
        bucket := bucket
        endpoint := endpoint
        access_key := ak
        secret_key := sk
        token :=
          if env.token ≠ "" then some env.token
          else if allow then sec.token else none
        pfxWs :=
          pyOrStr (pyOrStr env.pfxWs (getStr pub.pfxWs)) "workspace/backups" }

/-- The `missing` list computed by `main` (lines 327-337) when the config
failed to load: it inspects only the environment variables, not the merged
configuration. -/
def missingCreds (env : EnvVars) : List String :=
  (if env.accessKey = "" then ["AF_R2_ACCESS_KEY"] else []) ++
    (if env.secretKey = "" then ["AF_R2_SECRET_KEY"] else [])

/-- The `SystemExit` diagnostic raised by `main` (lines 338-340). -/
def configDiagnostic (env : EnvVars) : String :=
  if missingCreds env ≠ [] then
    "R2 credentials missing: " ++ String.intercalate ", " (missingCreds env)
  else "R2 config not found; set AF_R2_* or config/r2_public.json"

/-- The startup phase of `main` (lines 325-340): load the config; on
failure abort with the diagnostic before any enumeration or I/O, otherwise
hand the config to the sync pass. -/
def mainStartup (env : EnvVars) (pub : PubCfg) (sec : SecCfg) :
    Except String R2Config :=
  match load_r2_config env pub sec with
  | none => .error (configDiagnostic env)
  | some c => .ok c

end RunpodTricks

namespace RunpodTricks

/-- C1: Download staleness rule.  With `overwrite = false`,
`_should_download` decides `transfer` (returns `true`) exactly when the local
file is absent, or the sizes differ, or the remote has a modification time
and the local mtime is strictly earlier; in every other case it decides
`skip` (returns `false`). -/
theorem download_staleness_rule :
    (∀ (size : Nat) (rt : Option Rat),
        shouldDownload none size rt false = true) ∧
    (∀ (st : LocalStat) (size : Nat) (rt : Option Rat),
        shouldDownload (some st) size rt false = true ↔
          st.size ≠ size ∨ ∃ t, rt = some t ∧ st.mtime < t) := by
  refine ⟨fun size rt => rfl, fun st size rt => ?_⟩
  cases rt with
  | none => simp [shouldDownload]
  | some t => by_cases hsz : st.size = size <;> simp [shouldDownload, hsz]

/-- C2: Upload staleness rule.  `_should_upload` decides `transfer`
(returns `true`) exactly when no remote metadata exists, or the local size
differs from the remote size, or the remote has a modification time and the
local mtime is strictly later; otherwise it decides `skip`. -/
theorem upload_staleness_rule :
    (∀ (l : LocalStat), shouldUpload l none = true) ∧
    (∀ (l : LocalStat) (m : RemoteMeta),
        shouldUpload l (some m) = true ↔
          l.size ≠ remoteSize m ∨
            ∃ t, m.lastModified = some t ∧ l.mtime > t) := by
  refine ⟨fun l => rfl, fun l m => ?_⟩
  cases hlm : m.lastModified with
  | none => by_cases hsz : l.size = remoteSize m <;> simp [shouldUpload, hsz, hlm]
  | some t => by_cases hsz : l.size = remoteSize m <;> simp [shouldUpload, hsz, hlm]

/-- C4 counterexample: the upload direction has no overwrite-forced flag at
all — `_should_upload` takes only the local path and the remote metadata,
and `main` of `sync_workspace_r2.py` exposes no `--overwrite` option — so
during a forced run an up-to-date file (equal sizes, remote mtime newer) is
still decided `skip`, not `transfer`, refuting the claim for the upload
direction at this concrete pair. -/
theorem forced_overwrite_counterexample :
    shouldUpload ⟨5, 10⟩ (some ⟨some 5, some 20⟩) = false ∧
      syncFile (some ⟨some 5, some 20⟩) ⟨5, 10⟩ (Except.ok ()) =
        ⟨Status.skipped, none⟩ :=
  ⟨rfl, rfl⟩

/-- C4 (amended): in the download direction — the only direction whose diff
decision takes an overwrite-forced flag — `overwrite = true` always yields
`transfer`, regardless of local presence, sizes and timestamps. -/
theorem forced_overwrite_download :
    ∀ (loc : Option LocalStat) (size : Nat) (rt : Option Rat),
      shouldDownload loc size rt true = true :=
  fun _ _ _ => rfl

/-- C5: per-item failure isolation.  A download batch produces exactly one
outcome per task, and each task's outcome depends only on that task's own
body, so one task's exception cannot affect any other task; a body that
raises `e` yields a `failed` outcome whose message is `str(e)`, in
`_download_one` and (when the diff decided `transfer`) in `_sync_file`; no
exception escapes either wrapper, both being total functions into
outcomes. -/
theorem per_item_failure_isolation :
    (∀ (tasks : List (Except String Unit)),
        (runDownloadBatch tasks).length = tasks.length) ∧
      (∀ (tasks : List (Except String Unit)) (i : Nat),
          (runDownloadBatch tasks)[i]? = (tasks[i]?).map downloadOne) ∧
      (∀ e : String, downloadOne (Except.error e) = ⟨Status.failed, some e⟩) ∧
      (∀ (meta : Option RemoteMeta) (loc : LocalStat) (e : String),
          shouldUpload loc meta = true →
            syncFile meta loc (Except.error e) = ⟨Status.failed, some e⟩) := by
  refine ⟨fun tasks => ?_, fun tasks i => ?_, fun e => rfl,
    fun meta loc e h => ?_⟩
  · simp [runDownloadBatch]
  · simp [runDownloadBatch]
  · simp [syncFile, h]

/-- C5 witness: a concrete raising task ("Permission denied") in a batch of
three still lets its neighbours complete, and its own outcome is `failed`
with that message. -/
theorem per_item_failure_isolation_witness :
    (runDownloadBatch
          [Except.ok (), Except.error "Permission denied", Except.ok ()])[1]? =
        some ⟨Status.failed, some "Permission denied"⟩ ∧
      syncFile none ⟨3, 7⟩ (Except.error "Permission denied") =
        ⟨Status.failed, some "Permission denied"⟩ :=
  ⟨(per_item_failure_isolation.2.1
      [Except.ok (), Except.error "Permission denied", Except.ok ()] 1).trans
        rfl,
    per_item_failure_isolation.2.2.2 none ⟨3, 7⟩ "Permission denied" rfl⟩

/-- C10: any failure of the head-object call is swallowed by
`_head_object` (returns `None`), so `_should_upload` sees no remote
metadata and decides `transfer`, and `_sync_file` re-uploads the file
(outcome `uploaded`) rather than reporting the item as `failed`. -/
theorem head_failure_treated_as_absent :
    ∀ (e : String) (loc : LocalStat),
      headObject (Except.error e) = none ∧
        shouldUpload loc (headObject (Except.error e)) = true ∧
          syncFile (headObject (Except.error e)) loc (Except.ok ()) =
            ⟨Status.uploaded, none⟩ :=
  fun _ _ => ⟨rfl, rfl, rfl⟩

/-- One push-pass aggregation step bumps `processed` and exactly one of the
other three counters. -/
theorem syncStep_spec (c : Counters) (s : Status) :
    (syncStep c s).processed = c.processed + 1 ∧
      (syncStep c s).transferred + (syncStep c s).skipped +
          (syncStep c s).failed =
        c.transferred + c.skipped + c.failed + 1 := by
  rcases s <;> simp [syncStep] <;> omega

/-- Folding push-pass steps adds the batch length to `processed` and to the
three-way sum. -/
theorem syncFold_spec (l : List Status) (c : Counters) :
    (l.foldl syncStep c).processed = c.processed + l.length ∧
      (l.foldl syncStep c).transferred + (l.foldl syncStep c).skipped +
          (l.foldl syncStep c).failed =
        c.transferred + c.skipped + c.failed + l.length := by
  induction l generalizing c with
  | nil => simp
  | cons s rest ih =>
    obtain ⟨h1, h2⟩ := ih (syncStep c s)
    obtain ⟨g1, g2⟩ := syncStep_spec c s
    refine ⟨?_, ?_⟩ <;>
      simp only [List.foldl_cons, List.length_cons, h1, h2, g1, g2] <;> omega

/-- One pull-pass aggregation step bumps `processed` and one of
`transferred`/`failed`; it never touches `skipped`. -/
theorem restoreStep_spec (c : Counters) (s : Status) :
    (restoreStep c s).processed = c.processed + 1 ∧
      (restoreStep c s).transferred + (restoreStep c s).failed =
        c.transferred + c.failed + 1 ∧
      (restoreStep c s).skipped = c.skipped := by
  rcases s <;> simp [restoreStep] <;> omega

/-- Folding pull-pass steps adds the batch length to `processed` and to
`transferred + failed`, leaving `skipped` unchanged. -/
theorem restoreFold_spec (l : List Status) (c : Counters) :
    (l.foldl restoreStep c).processed = c.processed + l.length ∧
      (l.foldl restoreStep c).transferred + (l.foldl restoreStep c).failed =
        c.transferred + c.failed + l.length ∧
      (l.foldl restoreStep c).skipped = c.skipped := by
  induction l generalizing c with
  | nil => simp
  | cons s rest ih =>
    obtain ⟨h1, h2, h3⟩ := ih (restoreStep c s)
    obtain ⟨g1, g2, g3⟩ := restoreStep_spec c s
    refine ⟨?_, ?_, ?_⟩ <;>
      simp only [List.foldl_cons, List.length_cons, h1, h2, h3, g1, g2, g3] <;>
        omega

/-- Each considered object either joins `pending` or bumps `skipped`, so
the fold preserves `pending.length + skipped` up to the number of objects
consumed. -/
theorem planFold_spec (fs : List (PyStr × LocalStat)) (ow : Bool)
    (objs : List (PyStr × PyStr × RObj)) (acc : List (PyStr × PyStr) × Nat) :
    (objs.foldl (planStep fs ow) acc).1.length +
        (objs.foldl (planStep fs ow) acc).2 =
      acc.1.length + acc.2 + objs.length := by
  induction objs generalizing acc with
  | nil => simp
  | cons o rest ih =>
    simp only [List.foldl_cons, List.length_cons, ih]
    by_cases h : shouldDownload (fs.lookup o.2.1) (o.2.2.size.getD 0)
        o.2.2.lastModified ow = true <;> simp [planStep, h] <;> omega

/-- The concrete pull-pass scenario refuting C3 as stated: two objects
under prefix "p/", of which "p/b.txt" is up to date locally (equal size,
local mtime 9 at or after remote mtime 5) and "p/a.txt" is locally
absent. -/
def pullPassScenario : RestorePlan :=
  restorePlan "p/".toList [("b.txt".toList, ⟨20, 9⟩)] false
    [⟨"p/a.txt".toList, some 10, some 5⟩, ⟨"p/b.txt".toList, some 20, some 5⟩]

/-- The counters of that scenario observed right after its single pending
download completes successfully. -/
def pullPassCounters : Counters :=
  restoreCountersAt pullPassScenario.skipped [Status.downloaded] 1

/-- C3 counterexample: in the pull pass, `skipped` is accumulated in the
diff pre-pass while `processed` counts only pending downloads, so at the
observation point after the only download of this two-object run the
counters read `processed = 1`, `transferred = 1`, `skipped = 1`,
`failed = 0`, and `processed ≠ transferred + skipped + failed`. -/
theorem progress_counter_counterexample :
    pullPassScenario.skipped = 1 ∧ pullPassScenario.pending.length = 1 ∧
      pullPassCounters.processed = 1 ∧ pullPassCounters.transferred = 1 ∧
      pullPassCounters.skipped = 1 ∧ pullPassCounters.failed = 0 ∧
      pullPassCounters.processed ≠
        pullPassCounters.transferred + pullPassCounters.skipped +
          pullPassCounters.failed := by
  decide

/-- C3 (amended): at every observation point, the push pass satisfies
`processed = transferred + skipped + failed` and `processed ≤ total`; the
pull pass satisfies `processed = transferred + failed` with `skipped` fixed
at its pre-pass value and `processed ≤ pending`, where
`pending + skipped = total considered objects`. -/
theorem progress_counter_invariant :
    (∀ (outs : List Status) (k : Nat),
        (syncCountersAt outs k).processed =
            (syncCountersAt outs k).transferred +
              (syncCountersAt outs k).skipped + (syncCountersAt outs k).failed ∧
          (syncCountersAt outs k).processed ≤ outs.length) ∧
      (∀ (skipped0 : Nat) (outs : List Status) (k : Nat),
          (restoreCountersAt skipped0 outs k).processed =
              (restoreCountersAt skipped0 outs k).transferred +
                (restoreCountersAt skipped0 outs k).failed ∧
            (restoreCountersAt skipped0 outs k).skipped = skipped0 ∧
            (restoreCountersAt skipped0 outs k).processed ≤ outs.length) ∧
      (∀ (pfx : PyStr) (fs : List (PyStr × LocalStat)) (ow : Bool)
          (items : List RObj),
          (restorePlan pfx fs ow items).pending.length +
              (restorePlan pfx fs ow items).skipped =
            (restorePlan pfx fs ow items).considered.length) := by
  refine ⟨fun outs k => ?_, fun skipped0 outs k => ?_,
    fun pfx fs ow items => ?_⟩
  · obtain ⟨h1, h2⟩ := syncFold_spec (outs.take k) ⟨0, 0, 0, 0⟩
    simp only [Nat.zero_add] at h1 h2
    have hlen : (outs.take k).length = min k outs.length :=
      List.length_take k outs
    unfold syncCountersAt
    omega
  · obtain ⟨h1, h2, h3⟩ := restoreFold_spec (outs.take k) ⟨0, skipped0, 0, 0⟩
    simp only [Nat.zero_add] at h1 h2
    have hlen : (outs.take k).length = min k outs.length :=
      List.length_take k outs
    unfold restoreCountersAt
    refine ⟨by omega, by simpa using h3, by omega⟩
  · have h := planFold_spec fs ow (consideredObjects pfx items) ([], 0)
    simpa [restorePlan] using h

/-- Adding one sample to a window already within its bound appends it and
evicts the oldest sample exactly when the bound is exceeded. -/
theorem windowAdd_of_le (w : Nat) (d : Rat) (l : List Rat)
    (h : l.length ≤ w) :
    windowAdd w d l = (l ++ [d]).drop (l.length + 1 - w) := by
  rcases Nat.lt_or_ge l.length w with hlt | hge
  · have h1 : l.length + 1 - w = 0 := by omega
    have hc : ¬ w < l.length + 1 := by omega
    simp [windowAdd, h1, hc]
  · have hw : l.length = w := by omega
    have h1 : l.length + 1 - w = 1 := by omega
    have hc : w < l.length + 1 := by omega
    simp [windowAdd, h1, hc, List.drop_one]

/-- The sample list never grows beyond the window size. -/
theorem windowAdd_length_le (w : Nat) (d : Rat) (l : List Rat)
    (h : l.length ≤ w) : (windowAdd w d l).length ≤ w := by
  by_cases hc : w < l.length + 1 <;> simp [windowAdd, hc] <;> omega

/-- Folding a sequence of `add` calls over one window keeps exactly the
most recent samples: the suffix of length `min (total, w)` in arrival
order. -/
theorem windowFold_recent (w : Nat) (ds l : List Rat) (h : l.length ≤ w) :
    ds.foldl (fun s d => windowAdd w d s) l =
      (l ++ ds).drop (l.length + ds.length - w) := by
  induction ds generalizing l with
  | nil => simp [Nat.sub_eq_zero_of_le h]
  | cons d rest ih =>
    have hstep := windowAdd_of_le w d l h
    have hbound : (windowAdd w d l).length ≤ w := windowAdd_length_le w d l h
    simp only [List.foldl_cons]
    rw [ih (windowAdd w d l) hbound, hstep]
    have hdroplen : ((l ++ [d]).drop (l.length + 1 - w)).length =
        l.length + 1 - (l.length + 1 - w) := by
      simp [List.length_drop]
    rw [hdroplen]
    have hle : l.length + 1 - w ≤ (l ++ [d]).length := by
      rw [List.length_append, List.length_singleton]
      omega
    rw [← List.drop_append_of_le_length hle, List.drop_drop,
      List.append_assoc, List.singleton_append]
    simp only [List.length_cons]
    congr 1
    omega

/-- C7: rolling-window FIFO invariant.  Starting from the empty windows of
`RollingEta.__init__`, after any sequence of `add(duration)` calls every
configured window `w` holds exactly the most recent `min (number of calls,
w)` durations in arrival order (the length-`min` suffix of the call
sequence), and no window's sample list ever exceeds its size.  Since any
prefix of `ds` is itself a call sequence, the equation holds after each
individual call. -/
theorem rolling_window_fifo :
    ∀ (ws : List Nat) (ds : List Rat),
      etaAddAll ds (etaInit ws) =
          ws.map (fun w => (w, ds.drop (ds.length - w))) ∧
        (etaAddAll ds (etaInit ws)).all
            (fun p => decide (p.2.length ≤ p.1)) = true := by
  have hmap : ∀ (ds : List Rat) (st : List (Nat × List Rat)),
      etaAddAll ds st =
        st.map fun p =>
          (p.1, ds.foldl (fun s d => windowAdd p.1 d s) p.2) := by
    intro ds
    induction ds with
    | nil => intro st; simp [etaAddAll]
    | cons d rest ih =>
      intro st
      have h1 : etaAddAll (d :: rest) st = etaAddAll rest (etaAdd d st) := by
        simp [etaAddAll]
      rw [h1, ih (etaAdd d st)]
      simp only [etaAdd, List.map_map, List.foldl_cons]
      rfl
  intro ws ds
  have key : etaAddAll ds (etaInit ws) =
      ws.map fun w => (w, ds.drop (ds.length - w)) := by
    rw [hmap, etaInit, List.map_map]
    refine List.map_congr_left fun w _ => ?_
    have := windowFold_recent w ds [] (by simp)
    simpa using this
  refine ⟨key, ?_⟩
  rw [key, List.all_eq_true]
  intro x hx
  simp only [List.mem_map] at hx
  obtain ⟨w, _, rfl⟩ := hx
  simp only [decide_eq_true_eq, List.length_drop]
  omega

/-- An object whose key fails the listing filter maps to no considered
object. -/
theorem considerItem_excluded (pfx : PyStr) (item : RObj)
    (h : excludedKey pfx item.key = true) : considerItem pfx item = none := by
  simp only [excludedKey, Bool.or_eq_true, Bool.not_eq_eq_eq_not,
    Bool.not_true, beq_iff_eq] at h
  rcases h with (h | h) | h <;> simp [considerItem, h]

/-- C8: pseudo-directory exclusion.  An object of the remote listing whose
key does not start with the prefix, or whose key minus the prefix is empty
or ends in "/", is excluded entirely from the pull pass: the restore plan
built with it present is identical to the plan built without it, so it
contributes to neither the considered objects, the pending set, nor the
skip count (and hence to no processed/failed count either, those being
derived from `pending` alone). -/
theorem pseudo_directory_exclusion :
    ∀ (pfx : PyStr) (fs : List (PyStr × LocalStat)) (ow : Bool) (item : RObj)
      (before after : List RObj),
      excludedKey pfx item.key = true →
        restorePlan pfx fs ow (before ++ item :: after) =
          restorePlan pfx fs ow (before ++ after) := by
  intro pfx fs ow item before after h
  have hconsider : consideredObjects pfx (before ++ item :: after) =
      consideredObjects pfx (before ++ after) := by
    simp [consideredObjects, List.filterMap_append, List.filterMap_cons,
      considerItem_excluded pfx item h]
  simp only [restorePlan, hconsider]

/-- C8 witness: the spec scenario — three listed objects `a.txt` (local
absent), `b.txt` (local up to date) and the pseudo-directory marker `c/` —
yields the same plan as the listing without `c/`: 2 considered objects,
1 pending download, 1 skip. -/
theorem pseudo_directory_exclusion_witness :
    restorePlan "workspace/backups/".toList
          [("b.txt".toList, ⟨20, 10⟩)] false
          [⟨"workspace/backups/a.txt".toList, some 10, some 5⟩,
            ⟨"workspace/backups/c/".toList, some 0, some 5⟩,
            ⟨"workspace/backups/b.txt".toList, some 20, some 5⟩] =
        restorePlan "workspace/backups/".toList
          [("b.txt".toList, ⟨20, 10⟩)] false
          [⟨"workspace/backups/a.txt".toList, some 10, some 5⟩,
            ⟨"workspace/backups/b.txt".toList, some 20, some 5⟩] ∧
      (restorePlan "workspace/backups/".toList
            [("b.txt".toList, ⟨20, 10⟩)] false
            [⟨"workspace/backups/a.txt".toList, some 10, some 5⟩,
              ⟨"workspace/backups/c/".toList, some 0, some 5⟩,
              ⟨"workspace/backups/b.txt".toList, some 20, some 5⟩]).considered.length =
          2 ∧
      (restorePlan "workspace/backups/".toList
            [("b.txt".toList, ⟨20, 10⟩)] false
            [⟨"workspace/backups/a.txt".toList, some 10, some 5⟩,
              ⟨"workspace/backups/c/".toList, some 0, some 5⟩,
              ⟨"workspace/backups/b.txt".toList, some 20, some 5⟩]).pending.length =
          1 ∧
      (restorePlan "workspace/backups/".toList
            [("b.txt".toList, ⟨20, 10⟩)] false
            [⟨"workspace/backups/a.txt".toList, some 10, some 5⟩,
              ⟨"workspace/backups/c/".toList, some 0, some 5⟩,
              ⟨"workspace/backups/b.txt".toList, some 20, some 5⟩]).skipped =
          1 :=
  ⟨pseudo_directory_exclusion "workspace/backups/".toList
      [("b.txt".toList, ⟨20, 10⟩)] false
      ⟨"workspace/backups/c/".toList, some 0, some 5⟩
      [⟨"workspace/backups/a.txt".toList, some 10, some 5⟩]
      [⟨"workspace/backups/b.txt".toList, some 20, some 5⟩] (by decide),
    by decide, by decide, by decide⟩

/-- The `parts` loop of `RollingEta.format` keeps exactly the non-empty
windows, in order. -/
theorem etaParts_eq (remaining : Int) (st : List (Nat × List Rat)) :
    etaParts remaining st =
      (st.filter fun p => !p.2.isEmpty).map
        fun p => etaPart remaining p.1 p.2 := by
  induction st with
  | nil => rfl
  | cons p rest ih =>
    by_cases h : p.2.isEmpty <;> simp [etaParts, List.filter_cons, h, ih]

/-- C6 (amended): `RollingEta.format(remaining)` returns "0s" whenever
`remaining ≤ 0`; returns "n/a" when `remaining > 0` and every window is
empty; otherwise reports, for each non-empty window in order, `remaining`
times the arithmetic mean of that window's samples, comma-joined; and
`_fmt_duration` renders a non-negative value as `H:MM:SS` when its
*rounded* whole-second count reaches one hour and as `M:SS` otherwise
(the hour threshold is applied after rounding, not to the exact value). -/
theorem eta_formatting :
    (∀ (st : List (Nat × List Rat)) (remaining : Int),
        remaining ≤ 0 → etaFormat st remaining = "0s") ∧
      (∀ (st : List (Nat × List Rat)) (remaining : Int),
          0 < remaining → st.all (fun p => p.2.isEmpty) = true →
            etaFormat st remaining = "n/a") ∧
      (∀ (st : List (Nat × List Rat)) (remaining : Int),
          0 < remaining → (st.filter fun p => !p.2.isEmpty) ≠ [] →
            etaFormat st remaining =
              String.intercalate ", "
                ((st.filter fun p => !p.2.isEmpty).map fun p =>
                  "w" ++ toString p.1 ++ "(n=" ++ toString p.2.length ++
                    ")=" ++
                    fmtDuration
                      ((remaining : Rat) * (p.2.sum / (p.2.length : Rat))))) ∧
      (∀ q : Rat, 0 ≤ q → 3600 ≤ pyRound q →
          fmtDuration q =
            toString ((pyRound q).toNat / 3600) ++ ":" ++
              pad2 ((pyRound q).toNat % 3600 / 60) ++ ":" ++
              pad2 ((pyRound q).toNat % 60)) ∧
      (∀ q : Rat, 0 ≤ q → pyRound q < 3600 →
          fmtDuration q =
            toString ((pyRound q).toNat / 60) ++ ":" ++
              pad2 ((pyRound q).toNat % 60)) := by
  refine ⟨fun st remaining h => ?_, fun st remaining hr hall => ?_,
    fun st remaining hr hne => ?_, fun q h0 h36 => ?_, fun q h0 h36 => ?_⟩
  · simp [etaFormat, h]
  · have hno : ¬ remaining ≤ 0 := by omega
    have hfilter : (st.filter fun p => !p.2.isEmpty) = [] := by
      rw [List.filter_eq_nil_iff]
      intro p hp
      have := (List.all_eq_true.mp hall) p hp
      simp [this]
    simp [etaFormat, hno, etaParts_eq, hfilter]
  · have hno : ¬ remaining ≤ 0 := by omega
    have hmapne :
        ((st.filter fun p => !p.2.isEmpty).map fun p =>
            etaPart remaining p.1 p.2) ≠ [] := by
      simpa using hne
    have hfalse :
        ((st.filter fun p => !p.2.isEmpty).map fun p =>
            etaPart remaining p.1 p.2).isEmpty = false := by
      cases hmap : (st.filter fun p => !p.2.isEmpty).map fun p =>
          etaPart remaining p.1 p.2 with
      | nil => exact absurd hmap hmapne
      | cons a l => rfl
    simp only [etaFormat, if_neg hno, etaParts_eq, hfalse,
      Bool.false_eq_true, if_false]
    simp [etaPart]
  · have hneg : ¬ q < 0 := not_lt.mpr h0
    have hh : (pyRound q).toNat / 3600 ≠ 0 := by omega
    have h2 : (pyRound q).toNat % 3600 % 60 = (pyRound q).toNat % 60 :=
      Nat.mod_mod_of_dvd _ (by norm_num)
    simp [fmtDuration, hneg, hh, h2]
  · have hneg : ¬ q < 0 := not_lt.mpr h0
    have hh : (pyRound q).toNat / 3600 = 0 := by omega
    have h1 : (pyRound q).toNat % 3600 = (pyRound q).toNat := by omega
    simp [fmtDuration, hneg, hh, h1]

/-- C6 witness: concrete renderings — `format(0)` is "0s", all-empty
windows give "n/a", 7325 s renders "2:02:05" (`H:MM:SS`), 65 s renders
"1:05" (`M:SS`). -/
theorem eta_formatting_witness :
    etaFormat [(10, [(3 : Rat)])] 0 = "0s" ∧
      etaFormat [(10, []), (50, [])] 5 = "n/a" ∧
      fmtDuration (7325 : Rat) = "2:02:05" ∧
      fmtDuration (65 : Rat) = "1:05" := by
  have hp1 : pyRound (7325 : Rat) = 7325 := by
    unfold pyRound
    rw [if_neg (by norm_num)]
    norm_num [round_eq]
  have hp2 : pyRound (65 : Rat) = 65 := by
    unfold pyRound
    rw [if_neg (by norm_num)]
    norm_num [round_eq]
  refine ⟨eta_formatting.1 [(10, [(3 : Rat)])] 0 (by norm_num),
    eta_formatting.2.1 [(10, []), (50, [])] 5 (by norm_num) (by decide),
    (eta_formatting.2.2.2.1 (7325 : Rat) (by norm_num)
        (by rw [hp1]; norm_num)).trans ?_,
    (eta_formatting.2.2.2.2 (65 : Rat) (by norm_num)
        (by rw [hp2]; norm_num)).trans ?_⟩
  · rw [hp1]
    rfl
  · rw [hp2]
    rfl

/-- C6 counterexample: the hour threshold is applied to the *rounded*
second count, so the value 14399/4 = 3599.75 s — strictly less than one
hour — renders as "1:00:00", an `H:MM:SS` string (two colons), not an
`M:SS` one, refuting the claim's "H:MM:SS when the value is at least one
hour and M:SS otherwise" at this input; the same string appears in a full
`format` call on a one-sample window. -/
theorem eta_formatting_counterexample :
    ((14399 : Rat) / 4 < 3600) ∧
      fmtDuration ((14399 : Rat) / 4) = "1:00:00" ∧
      ("1:00:00".toList.count ':') = 2 ∧
      etaFormat [(10, [(14399 : Rat) / 4])] 1 = "w10(n=1)=1:00:00" := by
  have hfloor : ⌊(14399 : Rat) / 4⌋ = 3599 := by
    rw [Int.floor_eq_iff]
    norm_num
  have hround : pyRound ((14399 : Rat) / 4) = 3600 := by
    unfold pyRound
    rw [hfloor, if_neg (by norm_num), round_eq, Int.floor_eq_iff]
    norm_num
  have hneg : ¬ ((14399 : Rat) / 4 < 0) := by norm_num
  have hfmt : fmtDuration ((14399 : Rat) / 4) = "1:00:00" := by
    simp only [fmtDuration, hround, if_neg hneg]
    decide
  refine ⟨by norm_num, hfmt, by decide, ?_⟩
  rw [etaFormat]
  rw [if_neg (by norm_num)]
  simp only [etaParts, etaPart, List.isEmpty_cons]
  norm_num
  rw [hfmt]
  rfl

/-- C9 (amended): configuration is a hard precondition — `load_r2_config`
returns `None` exactly when, after merging environment, public config and
secret config (with the account-id endpoint fallback applied), any of
bucket, endpoint, access key or secret key is empty, and `main` then
aborts before any enumeration or I/O; the abort diagnostic, however, is
derived from the environment variables alone: it names
`AF_R2_ACCESS_KEY`/`AF_R2_SECRET_KEY` when those are unset in the
environment, and otherwise is a generic config-not-found message that does
not name the specific missing parameter. -/
theorem config_precondition :
    (∀ (env : EnvVars) (pub : PubCfg) (sec : SecCfg),
        load_r2_config env pub sec = none ↔
          (mergedBucket env pub = "" ∨ mergedEndpoint env pub = "" ∨
            mergedAccessKey env sec (allowFileSecrets env.allowFlag) = "" ∨
            mergedSecretKey env sec (allowFileSecrets env.allowFlag) = "")) ∧
      ∀ (env : EnvVars) (pub : PubCfg) (sec : SecCfg),
        load_r2_config env pub sec = none →
          mainStartup env pub sec = Except.error (configDiagnostic env) := by
  constructor
  · intro env pub sec
    by_cases h :
        mergedBucket env pub = "" ∨ mergedEndpoint env pub = "" ∨
          mergedAccessKey env sec (allowFileSecrets env.allowFlag) = "" ∨
          mergedSecretKey env sec (allowFileSecrets env.allowFlag) = "" <;>
      simp [load_r2_config, h]
  · intro env pub sec h
    simp [mainStartup, h]

/-- C9 witness: with nothing configured at all, loading fails and the run
aborts immediately with the credentials diagnostic. -/
theorem config_precondition_witness :
    mainStartup ⟨"", "", "", "", "", "", "", ""⟩ ⟨none, none, none, none⟩
        ⟨none, none, none⟩ =
      Except.error
        "R2 credentials missing: AF_R2_ACCESS_KEY, AF_R2_SECRET_KEY" := by
  have h := config_precondition.2 ⟨"", "", "", "", "", "", "", ""⟩
    ⟨none, none, none, none⟩ ⟨none, none, none⟩ rfl
  rw [h]
  rfl

/-- C9 counterexample: with the access and secret keys supplied by the
secret config file and only the bucket missing, loading fails (bucket
empty after merging) but the diagnostic is "R2 credentials missing:
AF_R2_ACCESS_KEY, AF_R2_SECRET_KEY" — it names two parameters that are
present after merging and does not name the missing bucket, refuting the
claim that the diagnostic names the missing parameter(s). -/
theorem config_diagnostic_counterexample :
    load_r2_config ⟨"", "", "", "", "", "", "", ""⟩
          ⟨none, none, some "https://ep.example", none⟩
          ⟨some "AK", some "SK", none⟩ =
        none ∧
      mergedBucket ⟨"", "", "", "", "", "", "", ""⟩
          ⟨none, none, some "https://ep.example", none⟩ = "" ∧
      mergedAccessKey ⟨"", "", "", "", "", "", "", ""⟩
          ⟨some "AK", some "SK", none⟩ true = "AK" ∧
      mergedSecretKey ⟨"", "", "", "", "", "", "", ""⟩
          ⟨some "AK", some "SK", none⟩ true = "SK" ∧
      mergedEndpoint ⟨"", "", "", "", "", "", "", ""⟩
          ⟨none, none, some "https://ep.example", none⟩ = "https://ep.example" ∧
      mainStartup ⟨"", "", "", "", "", "", "", ""⟩
          ⟨none, none, some "https://ep.example", none⟩
          ⟨some "AK", some "SK", none⟩ =
        Except.error
          "R2 credentials missing: AF_R2_ACCESS_KEY, AF_R2_SECRET_KEY" :=
  ⟨rfl, rfl, rfl, rfl, rfl, rfl⟩

end RunpodTricks
